import Mathlib

/-!
Shallow embedding of the chart / timing / scoring core of the rustmania
repository (src/notedata.rs, src/timingdata.rs), together with theorems
settling the claims C1..C10 about its specification.

Modelling conventions:
* `Rational32` / `Fraction` values are embedded as `ℚ`.
* `f64` arithmetic is embedded as exact real (`ℝ`) or rational (`ℚ`)
  arithmetic: the claims concern the symbolic formulas the code computes,
  so the embedding uses the ideal-arithmetic reading of the floating-point
  operations (`powf` becomes `Real.rpow`).
* machine-integer values (`i32`, `i64`, `usize`) are embedded as `ℤ` / `ℕ`;
  the `as i64` cast of an `f64` truncates toward zero, modelled by
  `ratTrunc`.
* Rust code that can panic (out-of-bounds array indexing, `usize`
  subtraction underflow) is modelled with `Option`, `none` standing for
  the panic.
-/

namespace Rustmania

/-- The note-type variant set, as used by `timingdata.rs` (which pattern
matches on `NoteType::HoldEnd` in `wife` and `max_points`).  The `NoteType`
enum literally declared in `notedata.rs` omits the `HoldEnd` variant even
though `timingdata.rs` consumes it; the full variant set is the one the
timing/scoring code requires. -/
inductive NoteType
  | Tap
  | Hold
  | HoldEnd
  | Roll
  | Mine
  | Lift
  | Fake
deriving DecidableEq

/-- `OffsetInfo(pub Option<i64>, pub NoteType)` from `timingdata.rs`:
an optional signed millisecond offset (absent = never hit) and the note
type. -/
structure OffsetInfo where
  offset : Option ℤ
  noteTy : NoteType
deriving DecidableEq

/-- `OffsetInfo::wife` from `timingdata.rs` (ideal-real reading of the
`f64` computation; `2.0_f64.powf e` becomes `(2 : ℝ) ^ e` via `Real.rpow`).
For Tap/Hold/Roll/Lift with a present offset it computes
`y = 1 - 2^(-1*offset*offset/(avedeviation*avedeviation))`,
squares `y` in place, and returns `10*(1-y) - 8`. -/
noncomputable def OffsetInfo.wife (oi : OffsetInfo) (ts : ℝ) : ℝ :=
  match oi.noteTy with
  | NoteType.Tap | NoteType.Hold | NoteType.Roll | NoteType.Lift =>
    match oi.offset with
    | none => -8
    | some offset =>
      let maxms : ℝ := (offset : ℝ)
      let avedeviation : ℝ := 95 * ts
      let y : ℝ := 1 - (2 : ℝ) ^ (-1 * maxms * maxms / (avedeviation * avedeviation))
      let y2 : ℝ := y * y
      10 * (1 - y2) - 8
  | NoteType.Fake | NoteType.HoldEnd => 0
  | NoteType.Mine =>
    match oi.offset with
    | some _ => -8
    | none => 0

/-- `OffsetInfo::max_points` from `timingdata.rs`. -/
noncomputable def OffsetInfo.max_points (oi : OffsetInfo) : ℝ :=
  match oi.noteTy with
  | NoteType.Tap | NoteType.Hold | NoteType.Roll | NoteType.Lift => 2
  | NoteType.Fake | NoteType.Mine | NoteType.HoldEnd => 0

/-- `TimingData<T>` from `timingdata.rs`: a fixed array of four columns,
each an ordered list of note records. -/
structure TimingData (T : Type) where
  notes : Fin 4 → List T

/-- `TimingData::new`: four empty columns. -/
def TimingData.new {T : Type} : TimingData T :=
  ⟨fun _ => []⟩

/-- `self.columns().flat_map(|x| x.iter())`: the notes of all four columns,
in column order. -/
def TimingData.allNotes {T : Type} (td : TimingData T) : List T :=
  (List.finRange 4).flatMap td.notes

/-- `TimingData::<OffsetInfo>::calculate_score` from `timingdata.rs`:
sums `max_points` and `wife(1.0)` over all notes of all columns and
divides.  The division is unconditional; in the `ℝ` model a zero
denominator yields Lean's division-by-zero value (the `f64` code would
produce a NaN there — the undefined case the caller must rule out). -/
noncomputable def TimingData.calculate_score (td : TimingData OffsetInfo) : ℝ :=
  let max_points := (td.allNotes.map (fun x => x.max_points)).sum
  let current_points := (td.allNotes.map (fun x => x.wife 1)).sum
  current_points / max_points

lemma allNotes_eq {T : Type} (td : TimingData T) :
    td.allNotes = td.notes 0 ++ td.notes 1 ++ td.notes 2 ++ td.notes 3 := by
  show (List.finRange 4).flatMap td.notes = _
  have h4 : List.finRange 4 = [0, 1, 2, 3] := by decide
  simp [h4, List.flatMap]

lemma wife_curve_eq (m : ℤ) (nt : NoteType)
    (hnt : nt = NoteType.Tap ∨ nt = NoteType.Hold ∨ nt = NoteType.Roll ∨ nt = NoteType.Lift)
    (ts : ℝ) :
    OffsetInfo.wife ⟨some m, nt⟩ ts =
      10 * (1 - (1 - (2 : ℝ) ^ (-1 * (m : ℝ) * (m : ℝ) / ((95 * ts) * (95 * ts)))) *
        (1 - (2 : ℝ) ^ (-1 * (m : ℝ) * (m : ℝ) / ((95 * ts) * (95 * ts))))) - 8 := by
  rcases hnt with h | h | h | h <;> subst h <;> rfl

/-- Bounds for the scorable-note decay curve: if `0 < ts` then
`10*(1-y²)-8` with `y = 1 - 2^(-m²/(95 ts)²)` lies in `(-8, 2]`, and it is
exactly `2` at `m = 0`. -/
lemma wife_curve_bounds (m : ℤ) (ts : ℝ) (hts : 0 < ts) :
    -8 < 10 * (1 - (1 - (2 : ℝ) ^ (-1 * (m : ℝ) * (m : ℝ) / ((95 * ts) * (95 * ts)))) *
        (1 - (2 : ℝ) ^ (-1 * (m : ℝ) * (m : ℝ) / ((95 * ts) * (95 * ts))))) - 8 ∧
    10 * (1 - (1 - (2 : ℝ) ^ (-1 * (m : ℝ) * (m : ℝ) / ((95 * ts) * (95 * ts)))) *
        (1 - (2 : ℝ) ^ (-1 * (m : ℝ) * (m : ℝ) / ((95 * ts) * (95 * ts))))) - 8 ≤ 2 := by
  set e : ℝ := -1 * (m : ℝ) * (m : ℝ) / ((95 * ts) * (95 * ts)) with he
  have hd : (0 : ℝ) < (95 * ts) * (95 * ts) := by positivity
  have hesign : e ≤ 0 := by
    rw [he]
    apply div_nonpos_of_nonpos_of_nonneg _ hd.le
    nlinarith [mul_self_nonneg (m : ℝ)]
  have hp0 : (0 : ℝ) < (2 : ℝ) ^ e := Real.rpow_pos_of_pos (by norm_num) e
  have hp1 : (2 : ℝ) ^ e ≤ 1 := Real.rpow_le_one_of_one_le_of_nonpos (by norm_num) hesign
  constructor
  · nlinarith [hp0, hp1]
  · nlinarith [hp0, hp1]

lemma bounds_of_eq_neg8 {x : ℝ} (h : x = -8) : -8 ≤ x ∧ x ≤ 2 := by
  subst h
  norm_num

lemma bounds_of_eq_zero {x : ℝ} (h : x = 0) : -8 ≤ x ∧ x ≤ 2 := by
  subst h
  norm_num

lemma wife_all_bounds (ts : ℝ) (hts : 0 < ts) (oi : OffsetInfo) :
    -8 ≤ oi.wife ts ∧ oi.wife ts ≤ 2 := by
  have hcurve : ∀ (m : ℤ) (nt : NoteType),
      (nt = NoteType.Tap ∨ nt = NoteType.Hold ∨ nt = NoteType.Roll ∨ nt = NoteType.Lift) →
      -8 ≤ OffsetInfo.wife ⟨some m, nt⟩ ts ∧ OffsetInfo.wife ⟨some m, nt⟩ ts ≤ 2 := by
    intro m nt h
    have hb := wife_curve_bounds m ts hts
    rw [wife_curve_eq m nt h ts]
    exact ⟨le_of_lt hb.1, hb.2⟩
  obtain ⟨o, nt⟩ := oi
  cases nt with
  | Tap =>
    cases o with
    | none => exact bounds_of_eq_neg8 rfl
    | some m => exact hcurve m _ (Or.inl rfl)
  | Hold =>
    cases o with
    | none => exact bounds_of_eq_neg8 rfl
    | some m => exact hcurve m _ (Or.inr (Or.inl rfl))
  | Roll =>
    cases o with
    | none => exact bounds_of_eq_neg8 rfl
    | some m => exact hcurve m _ (Or.inr (Or.inr (Or.inl rfl)))
  | Lift =>
    cases o with
    | none => exact bounds_of_eq_neg8 rfl
    | some m => exact hcurve m _ (Or.inr (Or.inr (Or.inr rfl)))
  | HoldEnd =>
    cases o with
    | none => exact bounds_of_eq_zero rfl
    | some m => exact bounds_of_eq_zero rfl
  | Fake =>
    cases o with
    | none => exact bounds_of_eq_zero rfl
    | some m => exact bounds_of_eq_zero rfl
  | Mine =>
    cases o with
    | none => exact bounds_of_eq_zero rfl
    | some m => exact bounds_of_eq_neg8 rfl

/-- The peak invariant of the idealized curve: a present offset of `0`
scores exactly `2` for scorable note types, for every `ts`.  Kept, with
`wife_curve_bounds` and `wife_all_bounds`, as the exact-real facts about
the `wife` curve: whether the program's `f64` curve attains `-8.0` at a
present offset is an IEEE-754 rounding question outside this exact
model. -/
lemma wife_peak (ts : ℝ) (nt : NoteType)
    (hnt : nt = NoteType.Tap ∨ nt = NoteType.Hold ∨ nt = NoteType.Roll ∨ nt = NoteType.Lift) :
    OffsetInfo.wife ⟨some 0, nt⟩ ts = 2 := by
  rw [wife_curve_eq 0 nt hnt ts]
  have he0 : -1 * ((0 : ℤ) : ℝ) * ((0 : ℤ) : ℝ) / ((95 * ts) * (95 * ts)) = 0 := by
    norm_num
  rw [he0, Real.rpow_zero]
  norm_num

/-- **C5**: for every `ts`, `wife` of an absent offset with scorable type
is exactly `-8`; `wife` with type Fake or HoldEnd is exactly `0` for any
offset; `wife` of a present offset with type Mine is exactly `-8` and of an
absent offset with type Mine is exactly `0`. -/
theorem C5_wife_constants (ts : ℝ) :
    (OffsetInfo.wife ⟨none, NoteType.Tap⟩ ts = -8 ∧
     OffsetInfo.wife ⟨none, NoteType.Hold⟩ ts = -8 ∧
     OffsetInfo.wife ⟨none, NoteType.Roll⟩ ts = -8 ∧
     OffsetInfo.wife ⟨none, NoteType.Lift⟩ ts = -8) ∧
    (∀ o : Option ℤ,
      OffsetInfo.wife ⟨o, NoteType.Fake⟩ ts = 0 ∧
      OffsetInfo.wife ⟨o, NoteType.HoldEnd⟩ ts = 0) ∧
    (∀ m : ℤ, OffsetInfo.wife ⟨some m, NoteType.Mine⟩ ts = -8) ∧
    OffsetInfo.wife ⟨none, NoteType.Mine⟩ ts = 0 := by
  refine ⟨⟨rfl, rfl, rfl, rfl⟩, ?_, fun m => rfl, rfl⟩
  intro o
  cases o <;> exact ⟨rfl, rfl⟩

/-- **C8**: `wife` is symmetric in the sign of a present offset for Tap
notes, for every offset and every `ts > 0`. -/
theorem C8_wife_symmetry (o : ℤ) (ts : ℝ) (hts : 0 < ts) :
    OffsetInfo.wife ⟨some o, NoteType.Tap⟩ ts =
      OffsetInfo.wife ⟨some (-o), NoteType.Tap⟩ ts := by
  rw [wife_curve_eq o NoteType.Tap (Or.inl rfl) ts,
      wife_curve_eq (-o) NoteType.Tap (Or.inl rfl) ts]
  have : -1 * ((o : ℝ)) * ((o : ℝ)) = -1 * (((-o : ℤ) : ℝ)) * (((-o : ℤ) : ℝ)) := by
    push_cast
    ring
  rw [this]

/-- **C8 witness**: instance of `C8_wife_symmetry` at `o = 5`, `ts = 1`. -/
theorem C8_wife_symmetry_witness :
    (0 : ℝ) < 1 ∧
    OffsetInfo.wife ⟨some 5, NoteType.Tap⟩ 1 =
      OffsetInfo.wife ⟨some (-5), NoteType.Tap⟩ 1 :=
  ⟨one_pos, C8_wife_symmetry 5 1 one_pos⟩

/-- **C3**: `calculate_score` is the sum of `wife` over all notes of the
four columns divided by the sum of `max_points` over the same notes
(stated via per-column sums), with no special case for a zero denominator;
and `max_points` is `2` for Tap/Hold/Roll/Lift and `0` for
Fake/Mine/HoldEnd. -/
theorem C3_calculate_score (td : TimingData OffsetInfo) :
    td.calculate_score =
      (∑ c : Fin 4, ((td.notes c).map (fun n => n.wife 1)).sum) /
      (∑ c : Fin 4, ((td.notes c).map OffsetInfo.max_points).sum) ∧
    (∀ o : Option ℤ,
      OffsetInfo.max_points ⟨o, NoteType.Tap⟩ = 2 ∧
      OffsetInfo.max_points ⟨o, NoteType.Hold⟩ = 2 ∧
      OffsetInfo.max_points ⟨o, NoteType.Roll⟩ = 2 ∧
      OffsetInfo.max_points ⟨o, NoteType.Lift⟩ = 2 ∧
      OffsetInfo.max_points ⟨o, NoteType.Fake⟩ = 0 ∧
      OffsetInfo.max_points ⟨o, NoteType.Mine⟩ = 0 ∧
      OffsetInfo.max_points ⟨o, NoteType.HoldEnd⟩ = 0) := by
  constructor
  · show (td.allNotes.map (fun x => x.wife 1)).sum /
        (td.allNotes.map (fun x => x.max_points)).sum = _
    rw [allNotes_eq]
    rw [Fin.sum_univ_four, Fin.sum_univ_four]
    simp [List.map_append, List.sum_append, add_assoc]
  · intro o
    exact ⟨rfl, rfl, rfl, rfl, rfl, rfl, rfl⟩

/-! ## Chart parser (`notedata.rs`) -/

/-- `char_to_notetype` from `notedata.rs`.  The Rust `match` has arms for
`'0'`, `'1'`, `'2'`, `'4'`, `'M'`, `'L'`, `'F'` and a catch-all returning
`None`; in particular there is no `'3'` arm, so `'3'` falls into the
catch-all. -/
def char_to_notetype (character : Char) : Option NoteType :=
  if character = '0' then none
  else if character = '1' then some NoteType.Tap
  else if character = '2' then some NoteType.Hold
  else if character = '4' then some NoteType.Roll
  else if character = 'M' then some NoteType.Mine
  else if character = 'L' then some NoteType.Lift
  else if character = 'F' then some NoteType.Fake
  else none

/-- `NoteRow` from `notedata.rs`: the `(NoteType, column-index)` pairs of
one row. -/
structure NoteRow where
  row : List (NoteType × ℕ)
deriving DecidableEq

/-- `parse_line` from `notedata.rs`: walk the characters of the line with
their indices, pushing `(note, index)` for every character that maps to a
note. -/
def parse_line (contents : String) : NoteRow :=
  ⟨contents.toList.enum.foldl
    (fun acc p =>
      match char_to_notetype p.2 with
      | some note => acc ++ [(note, p.1)]
      | none => acc)
    []⟩

/-- `parse_measure` from `notedata.rs`: the `n`-th line of a measure of
`division` lines is pushed as `(n / division, parse_line line)`.  Every
line of the slice is processed, empty or not. -/
def parse_measure (measure : List String) : List (ℚ × NoteRow) :=
  let division := measure.length
  measure.enum.foldl
    (fun output p => output ++ [((p.1 : ℚ) / (division : ℚ), parse_line p.2)])
    []

lemma foldl_push_eq_append {α β : Type} (f : α → β) :
    ∀ (l : List α) (init : List β),
      l.foldl (fun acc x => acc ++ [f x]) init = init ++ l.map f := by
  intro l
  induction l with
  | nil => intro init; simp
  | cons x xs ih =>
    intro init
    rw [List.foldl_cons, ih]
    simp

lemma parse_measure_eq_map (measure : List String) :
    parse_measure measure =
      measure.enum.map
        (fun p => ((p.1 : ℚ) / (measure.length : ℚ), parse_line p.2)) := by
  show measure.enum.foldl _ [] = _
  rw [foldl_push_eq_append (fun p : ℕ × String =>
    ((p.1 : ℚ) / (measure.length : ℚ), parse_line p.2)) measure.enum []]
  simp

/-- **C6**: the realized character-to-NoteType mapping of the parser.
`'0'` maps to no note, `'1'` to Tap, `'2'` to Hold, `'4'` to Roll, `'M'`
to Mine, `'L'` to Lift, `'F'` to Fake, and any other character — among
them `'3'`, which the claim says maps to HoldEnd — to no note.  This
exhibits the divergence at `'3'`: the code's own scoring logic
(`timingdata.rs`) handles `NoteType::HoldEnd`, but the parser can never
produce it. -/
theorem C6_char_mapping :
    char_to_notetype '0' = none ∧
    char_to_notetype '1' = some NoteType.Tap ∧
    char_to_notetype '2' = some NoteType.Hold ∧
    char_to_notetype '3' = none ∧
    char_to_notetype '4' = some NoteType.Roll ∧
    char_to_notetype 'M' = some NoteType.Mine ∧
    char_to_notetype 'L' = some NoteType.Lift ∧
    char_to_notetype 'F' = some NoteType.Fake ∧
    char_to_notetype 'x' = none ∧
    char_to_notetype '9' = none ∧
    char_to_notetype ' ' = none := by
  decide

/-- **C7**: within a measure, every line is one row (so in particular
every non-empty line is), and the `n`-th row (0-indexed) of a measure
containing `k` rows in total carries Position `n / k` — an exact rational,
automatically in lowest terms in `ℚ` — paired with the parse of that line;
a measure with zero rows yields no `(Position, Row)` pairs. -/
theorem C7_measure_positions (measure : List String) :
    (parse_measure measure).length = measure.length ∧
    (∀ (n : ℕ) (line : String), measure.get? n = some line →
      (parse_measure measure).get? n =
        some ((n : ℚ) / (measure.length : ℚ), parse_line line)) ∧
    parse_measure [] = [] := by
  refine ⟨?_, ?_, rfl⟩
  · rw [parse_measure_eq_map]
    simp
  · intro n line hline
    rw [parse_measure_eq_map, List.get?_map, List.get?_enum, hline]
    rfl

/-- **C7 witness**: instance of `C7_measure_positions` on the two-line
measure `["10", "01"]` at row index 1. -/
theorem C7_measure_positions_witness :
    (["10", "01"] : List String).get? 1 = some "01" ∧
    (parse_measure ["10", "01"]).get? 1 =
      some (((1 : ℕ) : ℚ) / (((["10", "01"] : List String).length : ℕ) : ℚ),
        parse_line "01") :=
  ⟨rfl, (C7_measure_positions ["10", "01"]).2.1 1 "01" rfl⟩

/-! ## Tempo map resolution and position-to-time conversion
(`TimingData::from_chartdata` in `timingdata.rs`) -/

/-- Truncation toward zero: models both `Rational32::trunc` (used inside
`fract`) and Rust's `as i64` cast of an `f64` row time. -/
def ratTrunc (q : ℚ) : ℤ :=
  if q < 0 then ⌈q⌉ else ⌊q⌋

/-- `Rational32::fract`: `self - self.trunc()`. -/
def ratFract (q : ℚ) : ℚ :=
  q - (ratTrunc q : ℚ)

/-- `ChartMetadata` as consumed by `timingdata.rs`: optional global offset
in seconds and the tempo-change list of
`(measure-index, fractional-position, tempo)` triples (`(i32, Rational32,
f64)` in the source).  Its declaration is not among the given source
files (the `ChartMetadata` declared in `notedata.rs` is an older shape
without `bpms`); the fields here are the ones `from_chartdata` reads. -/
structure ChartMetadata where
  offset : Option ℚ
  bpms : List (ℤ × ℚ × ℚ)

/-- `ChartData` as consumed by `timingdata.rs`: an ordered list of
measures, each an ordered list of `(Position, NoteRow)` pairs.  Its
declaration is not among the given source files; the shape is the one
`data.columns()` yields in `from_chartdata` (and matches `NoteData.notes`
in `notedata.rs`). -/
structure ChartData where
  measures : List (List (ℚ × NoteRow))

/-- A resolved tempo segment: the `(i32, Rational32, f64, f64)` tuple
`(measure-index, fractional-position, tempo, absolute-start-time-ms)`
built by `from_chartdata`. -/
structure BpmSeg where
  measure : ℤ
  frac : ℚ
  tempo : ℚ
  start : ℚ
deriving DecidableEq

/-- One step of the tempo-resolution loop: segment `i` copies the raw
fields of tempo change `b` and starts at
`prev.start + ((Δmeasure) + Δfrac) * 240000 / prev.tempo`. -/
def mkSeg (prev : BpmSeg) (b : ℤ × ℚ × ℚ) : BpmSeg :=
  ⟨b.1, b.2.1, b.2.2,
    prev.start + (((b.1 - prev.measure : ℤ) : ℚ) + (b.2.1 - prev.frac)) * 240000 / prev.tempo⟩

/-- The `for i in 1..bpms.len()` loop of `from_chartdata`. -/
def resolveAux (prev : BpmSeg) : List (ℤ × ℚ × ℚ) → List BpmSeg
  | [] => []
  | b :: rest => mkSeg prev b :: resolveAux (mkSeg prev b) rest

/-- Tempo-map resolution in `from_chartdata`: the first tempo change
starts at the global offset (milliseconds), each later one is chained via
`mkSeg`; an empty tempo list resolves to the empty list. -/
def resolveBpms (offset : ℚ) : List (ℤ × ℚ × ℚ) → List BpmSeg
  | [] => []
  | b :: rest => ⟨b.1, b.2.1, b.2.2, offset⟩ :: resolveAux ⟨b.1, b.2.1, b.2.2, offset⟩ rest

/-- `GameplayInfo(pub i64, pub graphics::Rect, pub NoteType)`; the
`ggez` rectangle is external rendering payload, kept as a type parameter
`R`. -/
structure GameplayInfo (R : Type) where
  time : ℤ
  sprite : R
  noteTy : NoteType
deriving DecidableEq

/-- The caller-supplied sprite lookup
`Fn(usize, f64, Rational32, NoteType, usize) -> graphics::Rect`. -/
def SpriteFinder (R : Type) : Type :=
  ℕ → ℚ → ℚ → NoteType → ℕ → R

/-- The cursor advancement at the head of the row loop in
`from_chartdata`: when a next segment exists and the row's measure index
exceeds its measure index, or they are equal and its fractional position
is at most the fractional part of the row position, the next segment
becomes current and a new next is fetched. -/
def advanceCursor (measure_index : ℕ) (inner_time : ℚ)
    (cur : BpmSeg) (rest : List BpmSeg) : BpmSeg × List BpmSeg :=
  match rest with
  | [] => (cur, [])
  | b :: r =>
    if (measure_index : ℤ) > b.measure ∨
        ((measure_index : ℤ) = b.measure ∧ b.frac ≤ ratFract inner_time) then
      (b, r)
    else
      (cur, b :: r)

/-- The measure-index delta `measure_index - current_bpm.0 as usize` of
the row-time computation.  Rust evaluates it in `usize`:
`current_bpm.0 as usize` is a wrapping `i32 → usize` cast (a negative
measure index becomes at least `2^63`, above any measure count a chart
can have), and the subtraction panics in debug builds (wraps to garbage
in release) whenever the subtrahend exceeds `measure_index`.  Both
failure regimes — a negative segment measure index, or one exceeding the
row's — are modelled as `none`. -/
def measureDelta (measure_index : ℕ) (segMeasure : ℤ) : Option ℕ :=
  if 0 ≤ segMeasure ∧ segMeasure ≤ (measure_index : ℤ) then
    some (measure_index - segMeasure.toNat)
  else
    none

/-- The `row_time` computation of `from_chartdata` (prior to the `as i64`
cast): `none` when the `usize` measure-index subtraction is undefined
(the program panics instead of computing the quotient), the quotient
otherwise.  The source's `value(inner_time - current_bpm.1)` converts the
`Rational32` difference to `f64`, the identity in this exact model. -/
def rowTime (cur : BpmSeg) (measure_index : ℕ) (inner_time : ℚ) (rate : ℚ) : Option ℚ :=
  match measureDelta measure_index cur.measure with
  | none => none
  | some d =>
    some ((cur.start + 240000 * ((d : ℚ) + (inner_time - cur.frac)) / cur.tempo) / rate)

/-- The inner `for (note, column_index) in row.notes()` loop of
`from_chartdata`: each note is pushed onto its column when the column
index is one of the four columns (`output.get_mut` succeeding), and is
skipped otherwise. -/
def pushNotes {R : Type} (t : ℤ) (sprite_finder : SpriteFinder R)
    (measure_index : ℕ) (inner_time : ℚ) (row : List (NoteType × ℕ))
    (output : Fin 4 → List (GameplayInfo R)) : Fin 4 → List (GameplayInfo R) :=
  row.foldl
    (fun o nc =>
      let sprite := sprite_finder measure_index 0 inner_time nc.1 nc.2
      if h : nc.2 < 4 then
        Function.update o ⟨nc.2, h⟩ (o ⟨nc.2, h⟩ ++ [⟨t, sprite, nc.1⟩])
      else
        o)
    output

/-- The running state of the conversion loop: the current segment, the
remaining (next-and-later) segments, and the four output columns. -/
structure ConvState (R : Type) where
  cur : BpmSeg
  rest : List BpmSeg
  output : Fin 4 → List (GameplayInfo R)

/-- Processing of a single `(inner_time, row)` pair in `from_chartdata`:
advance the cursor, compute the row time, push every note of the row;
`none` when the row-time computation panics. -/
def processRow {R : Type} (rate : ℚ) (sprite_finder : SpriteFinder R)
    (measure_index : ℕ) (st : ConvState R) (tr : ℚ × NoteRow) : Option (ConvState R) :=
  let c := advanceCursor measure_index tr.1 st.cur st.rest
  match rowTime c.1 measure_index tr.1 rate with
  | none => none
  | some t =>
    some ⟨c.1, c.2, pushNotes (ratTrunc t) sprite_finder measure_index tr.1 tr.2.row st.output⟩

/-- The inner `for (inner_time, row) in measure.iter()` loop of
`from_chartdata`; a panic in any row aborts the whole conversion. -/
def convRows {R : Type} (rate : ℚ) (sprite_finder : SpriteFinder R) (measure_index : ℕ) :
    ConvState R → List (ℚ × NoteRow) → Option (ConvState R)
  | st, [] => some st
  | st, tr :: trs =>
    match processRow rate sprite_finder measure_index st tr with
    | none => none
    | some st' => convRows rate sprite_finder measure_index st' trs

/-- The outer `for (measure_index, measure) in data.columns().enumerate()`
loop of `from_chartdata`. -/
def convMeasures {R : Type} (rate : ℚ) (sprite_finder : SpriteFinder R) :
    ℕ → ConvState R → List (List (ℚ × NoteRow)) → Option (Fin 4 → List (GameplayInfo R))
  | _, st, [] => some st.output
  | measure_index, st, m :: ms =>
    match convRows rate sprite_finder measure_index st m with
    | none => none
    | some st' => convMeasures rate sprite_finder (measure_index + 1) st' ms

/-- `TimingData::from_chartdata` from `timingdata.rs`: resolve the tempo
map from the millisecond offset (`meta.offset.unwrap_or(0.0) * 1000.0`),
return four empty columns when the tempo list is empty, and otherwise walk
every measure's rows converting positions to times.  `none` models the
panic of the `usize` measure-index subtraction propagating out of the
conversion. -/
def from_chartdata {R : Type} (data : ChartData) (meta : ChartMetadata)
    (sprite_finder : SpriteFinder R) (rate : ℚ) : Option (TimingData (GameplayInfo R)) :=
  let offset := meta.offset.getD 0 * 1000
  match resolveBpms offset meta.bpms with
  | [] => some TimingData.new
  | first :: rest =>
    match convMeasures rate sprite_finder 0 ⟨first, rest, fun _ => []⟩ data.measures with
    | none => none
    | some output => some ⟨output⟩

/-- `TimingData::add` from `timingdata.rs`: `self.notes[column].push(offset)`
indexes the four-element array directly; the Rust panic on `column >= 4`
is modelled by `none`. -/
def TimingData.add {T : Type} (td : TimingData T) (offset : T) (column : ℕ) :
    Option (TimingData T) :=
  if h : column < 4 then
    some ⟨Function.update td.notes ⟨column, h⟩ (td.notes ⟨column, h⟩ ++ [offset])⟩
  else
    none

/-- The start-time recurrence between two consecutive resolved tempo
segments, as stated by the tempo-map-resolver algorithm. -/
def stepEq (p c : BpmSeg) : Prop :=
  c.start = p.start + (((c.measure - p.measure : ℤ) : ℚ) + (c.frac - p.frac)) * 240000 / p.tempo

lemma stepEq_mkSeg (prev : BpmSeg) (b : ℤ × ℚ × ℚ) : stepEq prev (mkSeg prev b) := rfl

lemma chain_resolveAux : ∀ (l : List (ℤ × ℚ × ℚ)) (prev : BpmSeg),
    List.Chain stepEq prev (resolveAux prev l)
  | [], _ => List.Chain.nil
  | b :: rest, prev =>
    List.Chain.cons (stepEq_mkSeg prev b) (chain_resolveAux rest (mkSeg prev b))

lemma chain_resolveBpms (offset : ℚ) (bpms : List (ℤ × ℚ × ℚ)) :
    List.Chain' stepEq (resolveBpms offset bpms) := by
  cases bpms with
  | nil => simp [resolveBpms]
  | cons b rest => exact chain_resolveAux rest ⟨b.1, b.2.1, b.2.2, offset⟩

/-- **C1**: for a non-empty tempo-change list the first resolved segment
starts at the global offset (the millisecond value passed to
`resolveBpms`), every later segment `i` starts at segment `i-1`'s start
plus `((Δ measure-index) + (Δ fractional-position)) * 240000 / tempo_{i-1}`,
and for an empty tempo-change list `from_chartdata` returns the empty
`TimingData` (four empty columns, wrapped in `some`: no panic, no timed
output). -/
theorem C1_tempo_resolution (offset : ℚ) (bpms : List (ℤ × ℚ × ℚ)) :
    (∀ (b : ℤ × ℚ × ℚ) (bs : List (ℤ × ℚ × ℚ)), bpms = b :: bs →
      (resolveBpms offset bpms).get? 0 = some ⟨b.1, b.2.1, b.2.2, offset⟩) ∧
    (∀ (i : ℕ) (p c : BpmSeg),
      (resolveBpms offset bpms).get? i = some p →
      (resolveBpms offset bpms).get? (i + 1) = some c →
      c.start = p.start +
        (((c.measure - p.measure : ℤ) : ℚ) + (c.frac - p.frac)) * 240000 / p.tempo) ∧
    (∀ (R : Type) (data : ChartData) (meta : ChartMetadata)
      (sprite_finder : SpriteFinder R) (rate : ℚ),
      meta.bpms = [] → from_chartdata data meta sprite_finder rate = some TimingData.new) := by
  refine ⟨?_, ?_, ?_⟩
  · rintro b bs rfl
    rfl
  · intro i p c hp hc
    obtain ⟨hip, hep⟩ := List.get?_eq_some.mp hp
    obtain ⟨hic, hec⟩ := List.get?_eq_some.mp hc
    subst hep
    subst hec
    exact List.chain'_iff_get.mp (chain_resolveBpms offset bpms) i (by omega)
  · intro R data meta sprite_finder rate h
    simp [from_chartdata, h, resolveBpms]

/-- **C1 witness**: instance of `C1_tempo_resolution` on the tempo list
`[(0, 0, 120), (2, 0, 240)]` with offset `37` ms — segment 1 starts at
`37 + (2 + 0) * 240000 / 120 = 4037` ms — and on an empty tempo list. -/
theorem C1_tempo_resolution_witness :
    (resolveBpms 37 [((0 : ℤ), (0 : ℚ), (120 : ℚ)), ((2 : ℤ), (0 : ℚ), (240 : ℚ))]).get? 0 =
      some ⟨0, 0, 120, 37⟩ ∧
    (⟨2, 0, 240, 4037⟩ : BpmSeg).start =
      (⟨0, 0, 120, 37⟩ : BpmSeg).start +
        ((((⟨2, 0, 240, 4037⟩ : BpmSeg).measure - (⟨0, 0, 120, 37⟩ : BpmSeg).measure : ℤ) : ℚ) +
            ((⟨2, 0, 240, 4037⟩ : BpmSeg).frac - (⟨0, 0, 120, 37⟩ : BpmSeg).frac)) * 240000 /
          (⟨0, 0, 120, 37⟩ : BpmSeg).tempo ∧
    from_chartdata ⟨[]⟩ ⟨none, []⟩ (fun _ _ _ _ _ => (0 : ℕ)) 1 = some TimingData.new :=
  ⟨(C1_tempo_resolution 37 [(0, 0, 120), (2, 0, 240)]).1 (0, 0, 120) [(2, 0, 240)] rfl,
   (C1_tempo_resolution 37 [(0, 0, 120), (2, 0, 240)]).2.1 0 ⟨0, 0, 120, 37⟩ ⟨2, 0, 240, 4037⟩
     rfl (by norm_num [resolveBpms, resolveAux, mkSeg]),
   (C1_tempo_resolution 0 []).2.2 ℕ ⟨[]⟩ ⟨none, []⟩ (fun _ _ _ _ _ => 0) 1 rfl⟩

lemma pushNotes_eq {R : Type} (t : ℤ) (sprite_finder : SpriteFinder R)
    (measure_index : ℕ) (inner_time : ℚ) :
    ∀ (row : List (NoteType × ℕ)) (output : Fin 4 → List (GameplayInfo R)) (c : Fin 4),
      pushNotes t sprite_finder measure_index inner_time row output c =
        output c ++
          (row.filter (fun nc => nc.2 == c.1)).map
            (fun nc => ⟨t, sprite_finder measure_index 0 inner_time nc.1 nc.2, nc.1⟩) := by
  intro row
  induction row with
  | nil =>
    intro output c
    simp [pushNotes]
  | cons nc rest ih =>
    intro output c
    have hstep : pushNotes t sprite_finder measure_index inner_time (nc :: rest) output =
        pushNotes t sprite_finder measure_index inner_time rest
          (if h : nc.2 < 4 then
            Function.update output ⟨nc.2, h⟩
              (output ⟨nc.2, h⟩ ++
                [⟨t, sprite_finder measure_index 0 inner_time nc.1 nc.2, nc.1⟩])
          else output) := rfl
    rw [hstep]
    by_cases h : nc.2 < 4
    · rw [dif_pos h, ih]
      by_cases hc : c = ⟨nc.2, h⟩
      · subst hc
        have hf : (nc.2 == (⟨nc.2, h⟩ : Fin 4).1) = true := by simp
        rw [Function.update_same]
        simp [List.filter_cons, hf]
      · have hne : nc.2 ≠ c.1 := by
          intro e
          exact hc (Fin.ext e.symm)
        have hf : (nc.2 == c.1) = false := by simpa using hne
        rw [Function.update_noteq hc]
        simp [List.filter_cons, hf]
    · rw [dif_neg h, ih]
      have hne : nc.2 ≠ c.1 := by
        have := c.isLt
        omega
      have hf : (nc.2 == c.1) = false := by simpa using hne
      simp [List.filter_cons, hf]

lemma rowTime_eq_some (cur : BpmSeg) (measure_index : ℕ) (inner_time : ℚ) (rate : ℚ)
    (d : ℕ) (h : measureDelta measure_index cur.measure = some d) :
    rowTime cur measure_index inner_time rate =
      some ((cur.start + 240000 * ((d : ℚ) + (inner_time - cur.frac)) / cur.tempo) / rate) := by
  unfold rowTime
  rw [h]

lemma rowTime_eq_none (cur : BpmSeg) (measure_index : ℕ) (inner_time : ℚ) (rate : ℚ)
    (h : measureDelta measure_index cur.measure = none) :
    rowTime cur measure_index inner_time rate = none := by
  unfold rowTime
  rw [h]

lemma processRow_eq_some {R : Type} (rate : ℚ) (sprite_finder : SpriteFinder R)
    (measure_index : ℕ) (st : ConvState R) (inner_time : ℚ) (row : NoteRow) (t : ℚ)
    (h : rowTime (advanceCursor measure_index inner_time st.cur st.rest).1
      measure_index inner_time rate = some t) :
    processRow rate sprite_finder measure_index st (inner_time, row) =
      some ⟨(advanceCursor measure_index inner_time st.cur st.rest).1,
        (advanceCursor measure_index inner_time st.cur st.rest).2,
        pushNotes (ratTrunc t) sprite_finder measure_index inner_time row.row st.output⟩ := by
  simp only [processRow]
  rw [h]

lemma processRow_eq_none {R : Type} (rate : ℚ) (sprite_finder : SpriteFinder R)
    (measure_index : ℕ) (st : ConvState R) (inner_time : ℚ) (row : NoteRow)
    (h : rowTime (advanceCursor measure_index inner_time st.cur st.rest).1
      measure_index inner_time rate = none) :
    processRow rate sprite_finder measure_index st (inner_time, row) = none := by
  simp only [processRow]
  rw [h]

/-- **C2 counterexample**: the claim's formula is not computed whenever
the current segment's measure index exceeds the row's — an ordinary chart
whose tempo list starts at measure 1 while notes sit in measure 0.  There
the source's `usize` subtraction `measure_index - current_bpm.0 as usize`
underflows: panic in debug, wrapped garbage in release, in neither case
the claimed time `(0 + 240000 * ((0 - 1) + 0) / 120) / 1 = -2000` ms.  The
row therefore yields no timed output at all (`none`), already from the
`from_chartdata` entry point. -/
theorem C2_row_conversion_counterexample :
    processRow (R := ℕ) 1 (fun _ _ _ _ _ => 0) 0 ⟨⟨1, 0, 120, 0⟩, [], fun _ => []⟩
        (0, ⟨[(NoteType.Tap, 0)]⟩) = none ∧
    from_chartdata (R := ℕ) ⟨[[((0 : ℚ), ⟨[(NoteType.Tap, 0)]⟩)]]⟩ ⟨none, [(1, 0, 120)]⟩
        (fun _ _ _ _ _ => 0) 1 = none := by
  constructor <;> rfl

/-- **C2** (amended): before converting a row the cursor is promoted
(next becomes current, a new next is fetched) exactly when a next segment
exists and either the row's measure index exceeds its measure index, or
they are equal and its fractional position is at most the fractional part
of the row's position.  Provided the promoted current segment's measure
index lies between `0` and the row's measure index — the regime in which
the source's `usize` subtraction `measure_index - current_bpm.0 as usize`
is defined — every note of the row is emitted into its column carrying
the time
`(cur.start + 240000 * ((measure-index - cur.measure) + (Position - cur.frac)) / cur.tempo) / rate`
truncated to integer milliseconds; outside that regime the subtraction
underflows and the conversion panics (`none`), producing no timed
output. -/
theorem C2_row_conversion {R : Type} (rate : ℚ) (sprite_finder : SpriteFinder R)
    (measure_index : ℕ) (st : ConvState R) (inner_time : ℚ) (row : NoteRow) :
    (advanceCursor measure_index inner_time st.cur st.rest =
      match st.rest with
      | [] => (st.cur, [])
      | b :: r =>
        if (measure_index : ℤ) > b.measure ∨
            ((measure_index : ℤ) = b.measure ∧ b.frac ≤ ratFract inner_time) then
          (b, r)
        else
          (st.cur, b :: r)) ∧
    (0 ≤ (advanceCursor measure_index inner_time st.cur st.rest).1.measure →
      (advanceCursor measure_index inner_time st.cur st.rest).1.measure ≤ (measure_index : ℤ) →
      processRow rate sprite_finder measure_index st (inner_time, row) =
        some
          ⟨(advanceCursor measure_index inner_time st.cur st.rest).1,
            (advanceCursor measure_index inner_time st.cur st.rest).2,
            fun c =>
              st.output c ++
                (row.row.filter (fun nc => nc.2 == c.1)).map
                  (fun nc =>
                    ⟨ratTrunc
                        (((advanceCursor measure_index inner_time st.cur st.rest).1.start +
                            240000 *
                              ((((measure_index : ℤ) -
                                  (advanceCursor measure_index inner_time st.cur st.rest).1.measure :
                                ℤ) : ℚ) +
                                (inner_time -
                                  (advanceCursor measure_index inner_time st.cur st.rest).1.frac)) /
                              (advanceCursor measure_index inner_time st.cur st.rest).1.tempo) /
                          rate),
                      sprite_finder measure_index 0 inner_time nc.1 nc.2, nc.1⟩)⟩) ∧
    ((advanceCursor measure_index inner_time st.cur st.rest).1.measure < 0 ∨
        (measure_index : ℤ) < (advanceCursor measure_index inner_time st.cur st.rest).1.measure →
      processRow rate sprite_finder measure_index st (inner_time, row) = none) := by
  refine ⟨?_, ?_, ?_⟩
  · cases hr : st.rest with
    | nil => rfl
    | cons b r => rfl
  · intro h0 hle
    have hd : measureDelta measure_index
        (advanceCursor measure_index inner_time st.cur st.rest).1.measure =
        some (measure_index -
          (advanceCursor measure_index inner_time st.cur st.rest).1.measure.toNat) := by
      unfold measureDelta
      rw [if_pos ⟨h0, hle⟩]
    have hcast : ((measure_index -
          (advanceCursor measure_index inner_time st.cur st.rest).1.measure.toNat : ℕ) : ℚ) =
        (((measure_index : ℤ) -
          (advanceCursor measure_index inner_time st.cur st.rest).1.measure : ℤ) : ℚ) := by
      have h : ((measure_index -
            (advanceCursor measure_index inner_time st.cur st.rest).1.measure.toNat : ℕ) : ℤ) =
          (measure_index : ℤ) -
            (advanceCursor measure_index inner_time st.cur st.rest).1.measure := by
        omega
      exact_mod_cast congrArg (fun z : ℤ => (z : ℚ)) h
    rw [processRow_eq_some rate sprite_finder measure_index st inner_time row _
      (rowTime_eq_some _ _ _ _ _ hd)]
    simp only [hcast]
    congr 1
    congr 1
    funext c
    rw [pushNotes_eq]
  · intro h
    have hd : measureDelta measure_index
        (advanceCursor measure_index inner_time st.cur st.rest).1.measure = none := by
      unfold measureDelta
      rw [if_neg]
      rintro ⟨h1, h2⟩
      rcases h with h | h <;> omega
    exact processRow_eq_none rate sprite_finder measure_index st inner_time row
      (rowTime_eq_none _ _ _ _ hd)

/-- **C2 witness**: instances of `C2_row_conversion`.  In the defined
regime (cursor at measure 0, row in measure 1, 120 BPM, rate 1) the
single Tap note of the row lands in column 0 at `240000/120 = 2000` ms;
in the panic regime (cursor at measure 2, row in measure 0) the
conversion yields `none`. -/
theorem C2_row_conversion_witness :
    (0 : ℤ) ≤ (advanceCursor 1 0 ⟨0, 0, 120, 0⟩ []).1.measure ∧
    (advanceCursor 1 0 ⟨0, 0, 120, 0⟩ []).1.measure ≤ ((1 : ℕ) : ℤ) ∧
    Option.map (fun s : ConvState ℕ => s.output 0)
        (processRow 1 (fun _ _ _ _ _ => 0) 1 ⟨⟨0, 0, 120, 0⟩, [], fun _ => []⟩
          (0, ⟨[(NoteType.Tap, 0)]⟩)) =
      some [⟨2000, 0, NoteType.Tap⟩] ∧
    processRow (R := ℕ) 1 (fun _ _ _ _ _ => 0) 0 ⟨⟨2, 0, 240, 5⟩, [], fun _ => []⟩
        (0, ⟨[]⟩) = none := by
  refine ⟨by decide, by decide, ?_, ?_⟩
  · rw [(C2_row_conversion (R := ℕ) 1 (fun _ _ _ _ _ => 0) 1 ⟨⟨0, 0, 120, 0⟩, [], fun _ => []⟩
      0 ⟨[(NoteType.Tap, 0)]⟩).2.1 (by decide) (by decide)]
    norm_num [advanceCursor, ratTrunc, List.filter]
  · exact (C2_row_conversion (R := ℕ) 1 (fun _ _ _ _ _ => 0) 0 ⟨⟨2, 0, 240, 5⟩, [], fun _ => []⟩
      0 ⟨[]⟩).2.2 (Or.inr (by decide))

lemma pushNotes_drop {R : Type} (t : ℤ) (sprite_finder : SpriteFinder R)
    (measure_index : ℕ) (inner_time : ℚ) (pre post : List (NoteType × ℕ))
    (n : NoteType) (col : ℕ) (h : ¬ col < 4)
    (output : Fin 4 → List (GameplayInfo R)) :
    pushNotes t sprite_finder measure_index inner_time (pre ++ (n, col) :: post) output =
      pushNotes t sprite_finder measure_index inner_time (pre ++ post) output := by
  unfold pushNotes
  rw [List.foldl_append, List.foldl_append, List.foldl_cons]
  congr 1
  exact dif_neg h

/-- **C9**: during conversion, a note whose column index is out of the
valid range `0..3` is silently dropped: removing it from its row leaves
the row's conversion result (cursor state and all four output columns,
hence all notes of the same row with in-range columns) unchanged, and the
conversion never fails. -/
theorem C9_out_of_range_dropped {R : Type} (rate : ℚ) (sprite_finder : SpriteFinder R)
    (measure_index : ℕ) (st : ConvState R) (inner_time : ℚ)
    (pre post : List (NoteType × ℕ)) (n : NoteType) (col : ℕ) (h : 4 ≤ col) :
    processRow rate sprite_finder measure_index st (inner_time, ⟨pre ++ (n, col) :: post⟩) =
      processRow rate sprite_finder measure_index st (inner_time, ⟨pre ++ post⟩) := by
  have key : ∀ t : ℤ,
      pushNotes t sprite_finder measure_index inner_time (pre ++ (n, col) :: post) st.output =
        pushNotes t sprite_finder measure_index inner_time (pre ++ post) st.output :=
    fun t => pushNotes_drop t sprite_finder measure_index inner_time pre post n col
      (by omega) st.output
  simp only [processRow]
  cases hrt : rowTime (advanceCursor measure_index inner_time st.cur st.rest).1
      measure_index inner_time rate with
  | none => rfl
  | some t => simp only [key]

/-- **C9 witness**: instance of `C9_out_of_range_dropped` dropping a Tap
note in column 9 while keeping the Tap note in column 0 of the same
row. -/
theorem C9_out_of_range_dropped_witness :
    (4 : ℕ) ≤ 9 ∧
    processRow (R := ℕ) 1 (fun _ _ _ _ _ => 0) 0 ⟨⟨0, 0, 120, 0⟩, [], fun _ => []⟩
        (0, ⟨[(NoteType.Tap, 0)] ++ (NoteType.Tap, 9) :: []⟩) =
      processRow 1 (fun _ _ _ _ _ => 0) 0 ⟨⟨0, 0, 120, 0⟩, [], fun _ => []⟩
        (0, ⟨[(NoteType.Tap, 0)] ++ []⟩) :=
  ⟨by norm_num,
   C9_out_of_range_dropped 1 (fun _ _ _ _ _ => 0) 0 ⟨⟨0, 0, 120, 0⟩, [], fun _ => []⟩ 0
     [(NoteType.Tap, 0)] [] NoteType.Tap 9 (by norm_num)⟩

/-- **C10**: the public `TimingData::add` indexes the fixed four-element
column array directly: for every column index at least 4 it panics
(modelled as `none`) instead of silently dropping the entry, while for an
in-range column it pushes the entry onto that column.  The silent-drop
policy thus holds only inside `from_chartdata` (`pushNotes`), not at this
public interface. -/
theorem C10_add_panics {T : Type} (td : TimingData T) (x : T) (column : ℕ) :
    (4 ≤ column → td.add x column = none) ∧
    (∀ h : column < 4,
      td.add x column =
        some ⟨Function.update td.notes ⟨column, h⟩ (td.notes ⟨column, h⟩ ++ [x])⟩) := by
  constructor
  · intro h
    exact dif_neg (by omega)
  · intro h
    exact dif_pos h

/-- **C10 witness**: instance of `C10_add_panics` at column 5 (panic) on
an empty `TimingData` of naturals. -/
theorem C10_add_panics_witness :
    (4 : ℕ) ≤ 5 ∧ (TimingData.new (T := ℕ)).add 7 5 = none :=
  ⟨by norm_num, (C10_add_panics TimingData.new 7 5).1 (by norm_num)⟩

end Rustmania
